import Mathlib

/-!
Shallow embedding of the connection/session core of the viam typescript SDK:
the `Client` connection manager (src/unnamed/part_000) and `SessionManager`
(src/SessionManager.ts).  Asynchronous methods are split at their `await`
points into atomic segments; cooperative interleavings are explicit schedules
over a total step function.
-/

namespace Viam

/-- google.protobuf Duration, as carried in `StartSessionResponse.heartbeatWindow`. -/
structure Duration where
  seconds : Int
  nanos : Int
deriving DecidableEq, Repr

/-- Heartbeat interval computed by `getSessionMetadata`:
`(heartbeatWindow.seconds * 1e3 + heartbeatWindow.nanos / 1e6) / 5`. -/
def intervalMs (w : Duration) : ℚ :=
  ((w.seconds : ℚ) * 1000 + (w.nanos : ℚ) / 1000000) / 5

/-- `grpc.Metadata`, modelled as an association list of string keys/values. -/
abbrev Metadata := List (String × String)

/-- The mutable fields of `SessionManager`, plus observation logs:
`startSessionLog` records the `resume` field of every `StartSessionRequest`
sent, `heartbeatLog` records the `id` of every `SendSessionHeartbeatRequest`
sent, and `loopPending` counts scheduled `doHeartbeat` invocations
(worker message or `setTimeout` callbacks currently armed). -/
structure SMState where
  currentSessionID : String := ""
  sessionsSupported : Option Bool := none
  heartbeatIntervalMs : Option ℚ := none
  starting : Bool := false
  loopPending : Nat := 0
  startSessionLog : List String := []
  heartbeatLog : List String := []
deriving DecidableEq, Repr

/-- Outcome of the awaited `client.startSession` call: a response (whose
`heartbeatWindow` may be absent), or a `ConnectError` with a code. -/
inductive StartOutcome where
  | ok (id : String) (window : Option Duration)
  | err (code : Nat) (msg : String)
deriving DecidableEq, Repr

/-- Outcome of the awaited `client.sendSessionHeartbeat` call:
success, a `ConnectionClosedError`, or any other error. -/
inductive HbOutcome where
  | ok
  | errClosed
  | errOther
deriving DecidableEq, Repr

/-- How the shared `this.starting` promise settled during a negotiation
(first settlement wins; later resolve/reject calls are no-ops). -/
inductive Settle where
  | resolvedOk
  | rejected (code : Nat) (msg : String)
deriving DecidableEq, Repr

/-- `Code.Unimplemented` of connect-web. -/
def codeUnimplemented : Nat := 12

/-- `Code.Internal` of connect-web. -/
def codeInternal : Nat := 13

/-- `SessionManager.getSessionMetadataInner`: a metadata map holding
`viam-sid` when sessions are supported and a session id is held. -/
def getSessionMetadataInner (s : SMState) : Metadata :=
  if s.sessionsSupported = some true ∧ s.currentSessionID ≠ "" then
    [("viam-sid", s.currentSessionID)]
  else []

/-- `SessionManager.reset`: a no-op while a negotiation is in flight,
otherwise clears only the support-known flag. -/
def reset (s : SMState) : SMState :=
  if s.starting then s else { s with sessionsSupported := none }

/-- Entry of `SessionManager.heartbeat`: the support/id guard is evaluated
here, once; passing it arms one `doHeartbeat` invocation. -/
def heartbeatEntry (s : SMState) : SMState :=
  if s.sessionsSupported = some true ∧ s.currentSessionID ≠ "" then
    { s with loopPending := s.loopPending + 1 }
  else s

/-- One `doHeartbeat` invocation: unconditionally sends a heartbeat request
carrying the current session id; a `ConnectionClosedError` triggers `reset()`,
any other error is swallowed; in every case the next invocation is re-armed
(worker `postMessage` / `setTimeout`), leaving `loopPending` unchanged. -/
def heartbeatTick (s : SMState) (o : HbOutcome) : SMState :=
  let s1 := { s with heartbeatLog := s.heartbeatLog ++ [s.currentSessionID] }
  match o with
  | .ok => s1
  | .errClosed => reset s1
  | .errOther => s1

/-- The `resume` field of the `StartSessionRequest` built by
`getSessionMetadata`: set to the current id when non-empty, else left at the
protobuf default `""`. -/
def resumeField (s : SMState) : String :=
  if s.currentSessionID = "" then "" else s.currentSessionID

/-- First segment of a negotiation in `getSessionMetadata`: install the
`starting` promise and send `startSession` (log its `resume`); the method is
then suspended awaiting the server. -/
def gsmStartState (s : SMState) : SMState :=
  { s with starting := true, startSessionLog := s.startSessionLog ++ [resumeField s] }

/-- Remainder of `getSessionMetadata` once `startSession` settles with `o`,
through the `finally`.  Returns the new state, the value returned to the
caller (always an ordinary `grpc.Metadata`), and how the shared `starting`
promise settled. -/
def gsmFinish (s : SMState) (o : StartOutcome) : SMState × Metadata × Settle :=
  match o with
  | .err code msg =>
    if code = codeUnimplemented then
      ({ s with sessionsSupported := some false, starting := false }, [], .resolvedOk)
    else
      ({ s with starting := false }, [], .rejected code msg)
  | .ok id window =>
    match window with
    | none =>
      ({ s with starting := false }, [],
        .rejected codeInternal "expected heartbeat window in response to start session")
    | some w =>
      let s2 := heartbeatEntry { s with sessionsSupported := some true, currentSessionID := id,
                                        heartbeatIntervalMs := some (intervalMs w) }
      ({ s2 with starting := false }, getSessionMetadataInner s2, .resolvedOk)

/-- A whole `getSessionMetadata` call (sequential, no concurrent caller):
early return when support is already known, otherwise negotiate with server
outcome `o`.  The third component is `none` when no negotiation happened. -/
def gsm (s : SMState) (o : StartOutcome) : SMState × Metadata × Option Settle :=
  if s.sessionsSupported = none then
    let r := gsmFinish (gsmStartState s) o
    (r.1, r.2.1, some r.2.2)
  else
    (s, getSessionMetadataInner s, none)

/-- A sequence of `getSessionMetadata` calls with the given server outcomes;
returns the final state and the metadata returned by each call. -/
def gsmMany (s : SMState) (os : List StartOutcome) : SMState × List Metadata :=
  match os with
  | [] => (s, [])
  | o :: rest =>
    let r := gsm s o
    let r2 := gsmMany r.1 rest
    (r2.1, r.2.1 :: r2.2)

/-- A transport factory value held by the client: one produced by a dial, or
the session-decorating factory that `SessionManager.transportFactory` always
yields. -/
inductive TransportF where
  | raw (n : Nat)
  | sessionWrapped
deriving DecidableEq, Repr

/-- The `SessionOptions` configuration of the client. -/
structure SessionOptions where
  disabled : Bool
deriving DecidableEq, Repr

/-- The mutable fields of `Client`, plus an observation log `dials` recording
the `(authEntity, credentials)` of every invocation of the dialer
(`dialWebRTC` or `dialDirect`).  `connecting` holds the generation number of
the in-flight connect promise, `nextGen` the next unused generation. -/
structure ClientState where
  serviceHost : String
  webrtcEnabled : Bool := false
  sessionOptions : Option SessionOptions := none
  transportFactory : Option TransportF := none
  peerConn : Option Nat := none
  connecting : Option Nat := none
  nextGen : Nat := 0
  savedAuthEntity : Option String := none
  savedCreds : Option Nat := none
  dials : List (Option String × Option Nat) := []
  sm : SMState := {}
deriving DecidableEq, Repr

/-- `Client.notConnectedYetStr`. -/
def notConnectedYetStr : String := "not connected yet"

/-- The test `this.sessionOptions?.disabled` (false when `sessionOptions`
is absent). -/
def sessionsDisabled (c : ClientState) : Bool :=
  match c.sessionOptions with
  | some so => so.disabled
  | none => false

/-- The `clientTransportFactory` selected by `createServiceClient` and
`host`: the raw factory when sessions are disabled, else the session
manager's factory getter, which always yields a value. -/
def clientTransportFactory (c : ClientState) : Option TransportF :=
  if sessionsDisabled c then c.transportFactory else some .sessionWrapped

/-- `Client.createServiceClient`: throws `not connected yet` when the
selected factory is absent, else constructs the service client from the
service host and that factory. -/
def createServiceClient (c : ClientState) : Except String (String × TransportF) :=
  match clientTransportFactory c with
  | none => .error notConnectedYetStr
  | some tf => .ok (c.serviceHost, tf)

/-- The `Client.host` accessor: same guard, then returns the configured
service host. -/
def host (c : ClientState) : Except String String :=
  match clientTransportFactory c with
  | none => .error notConnectedYetStr
  | some _ => .ok c.serviceHost

/-- The inner transport factory closure installed in the `Client`
constructor: when invoked it throws `not connected yet` if no transport
factory exists, else delegates to it. -/
def innerTransportFactory (c : ClientState) : Except String TransportF :=
  match c.transportFactory with
  | none => .error notConnectedYetStr
  | some tf => .ok tf

/-- Control state of one logical caller: a `connect` call not yet entered
(`cStart` with its arguments), a caller awaiting the `connecting` promise of
generation `g`, the initiator awaiting its dial, a finished `connect`
(with the error it threw, if any), and likewise for `disconnect`. -/
inductive TaskState where
  | idle
  | cStart (auth : Option String) (creds : Option Nat)
  | cWaiting (g : Nat)
  | cDialing (g : Nat)
  | cDone (err : Option Nat)
  | dStart
  | dWaiting (g : Nat)
  | dDone
deriving DecidableEq, Repr

/-- A client configuration: shared state plus the control state of each task. -/
structure CConfig where
  st : ClientState
  tasks : Nat → TaskState

/-- Result of the awaited dial: a peer connection / transport factory pair,
or a dial error. -/
inductive DialResult where
  | ok (pc : Nat) (tf : Nat)
  | fail (e : Nat)
deriving DecidableEq, Repr

/-- Scheduler actions: advance task `i` through its next synchronous
segment, or settle the dial task `i` is awaiting with result `r`. -/
inductive CAction where
  | run (i : Nat)
  | settle (i : Nat) (r : DialResult)
deriving DecidableEq, Repr

/-- Point update of the task map. -/
def updTask (ts : Nat → TaskState) (i : Nat) (t : TaskState) : Nat → TaskState :=
  fun j => if j = i then t else ts j

/-- Whether the `connecting` promise of generation `g` has been resolved:
it was created (`g < nextGen`) and is no longer the in-flight one (the
`finally` of `connect` resolves it and clears `connecting` atomically). -/
def resolvedConn (st : ClientState) (g : Nat) : Prop :=
  g < st.nextGen ∧ st.connecting ≠ some g

instance (st : ClientState) (g : Nat) : Decidable (resolvedConn st g) :=
  inferInstanceAs (Decidable (g < st.nextGen ∧ st.connecting ≠ some g))

/-- Advance task `i` through its next synchronous segment.

`cStart`: the prologue of `connect` — if a connect is in flight the caller
just starts waiting on its promise; otherwise it installs a fresh
`connecting` promise, closes any peer connection, resets the session
manager, resolves the effective auth/credentials (parameter defaults read
the saved fields), saves them, and invokes the dialer, suspending until the
dial settles.

`cWaiting`/`dWaiting`: a caller parked on `await this.connecting`; it can
proceed only once that promise resolved, and then re-checks the `while`
condition.  A woken `connect` waiter returns immediately; a woken
`disconnect` waiter with no in-flight connect closes the peer connection and
resets the session manager.

`dStart`: the prologue of `disconnect` — waits if a connect is in flight,
else tears down at once. -/
def stepRun (i : Nat) (cfg : CConfig) : CConfig :=
  match cfg.tasks i with
  | .cStart a c =>
    match cfg.st.connecting with
    | some g => { cfg with tasks := updTask cfg.tasks i (.cWaiting g) }
    | none =>
      let ea := match a with | some x => some x | none => cfg.st.savedAuthEntity
      let ec := match c with | some x => some x | none => cfg.st.savedCreds
      let g := cfg.st.nextGen
      { st := { cfg.st with
                  connecting := some g
                  nextGen := g + 1
                  peerConn := none
                  sm := reset cfg.st.sm
                  savedAuthEntity := ea
                  savedCreds := ec
                  dials := cfg.st.dials ++ [(ea, ec)] }
        tasks := updTask cfg.tasks i (.cDialing g) }
  | .cWaiting g =>
    if resolvedConn cfg.st g then
      match cfg.st.connecting with
      | some g2 => { cfg with tasks := updTask cfg.tasks i (.cWaiting g2) }
      | none => { cfg with tasks := updTask cfg.tasks i (.cDone none) }
    else cfg
  | .cDialing _ => cfg
  | .cDone _ => cfg
  | .dStart =>
    match cfg.st.connecting with
    | some g => { cfg with tasks := updTask cfg.tasks i (.dWaiting g) }
    | none =>
      { st := { cfg.st with peerConn := none, sm := reset cfg.st.sm }
        tasks := updTask cfg.tasks i .dDone }
  | .dWaiting g =>
    if resolvedConn cfg.st g then
      match cfg.st.connecting with
      | some g2 => { cfg with tasks := updTask cfg.tasks i (.dWaiting g2) }
      | none =>
        { st := { cfg.st with peerConn := none, sm := reset cfg.st.sm }
          tasks := updTask cfg.tasks i .dDone }
    else cfg
  | .dDone => cfg
  | .idle => cfg

/-- Settle the dial of initiator task `i`: on success store the transport
factory (and the peer connection, in WebRTC mode); in every case the
`finally` resolves the `connecting` promise and clears `connecting`; a dial
failure is rethrown to the initiating caller only. -/
def stepSettle (i : Nat) (r : DialResult) (cfg : CConfig) : CConfig :=
  match cfg.tasks i with
  | .cDialing g =>
    if cfg.st.connecting = some g then
      match r with
      | .ok pc tf =>
        { st := { cfg.st with
                    transportFactory := some (.raw tf)
                    peerConn := if cfg.st.webrtcEnabled then some pc else cfg.st.peerConn
                    connecting := none }
          tasks := updTask cfg.tasks i (.cDone none) }
      | .fail e =>
        { st := { cfg.st with connecting := none }
          tasks := updTask cfg.tasks i (.cDone (some e)) }
    else cfg
  | _ => cfg

/-- One scheduler step. -/
def stepC (a : CAction) (cfg : CConfig) : CConfig :=
  match a with
  | .run i => stepRun i cfg
  | .settle i r => stepSettle i r cfg

/-- Run a whole schedule. -/
def runC (sched : List CAction) (cfg : CConfig) : CConfig :=
  sched.foldl (fun c a => stepC a c) cfg

/-- Task map with the dial initiator at index 0 and `N` callers parked on
its `connecting` promise. -/
def c1tasks (N : Nat) : Nat → TaskState :=
  fun i => if i = 0 then .cDialing 0 else if i ≤ N then .cWaiting 0 else .idle

/-- A dial attempt of generation 0 is in flight: task 0 awaits the dial and
every other task is parked on the `connecting` promise (or absent). -/
def Phase1 (cfg : CConfig) : Prop :=
  cfg.st.connecting = some 0 ∧ cfg.tasks 0 = .cDialing 0 ∧
    ∀ i, i ≠ 0 → (cfg.tasks i = .cWaiting 0 ∨ cfg.tasks i = .idle)

/-- The dial settled: task 0 finished and each other task is still parked,
has returned without error, or is absent. -/
def Phase2 (cfg : CConfig) : Prop :=
  cfg.st.connecting = none ∧ (∃ r, cfg.tasks 0 = .cDone r) ∧
    ∀ i, i ≠ 0 →
      (cfg.tasks i = .cWaiting 0 ∨ cfg.tasks i = .cDone none ∨ cfg.tasks i = .idle)

/-- Invariant of an attempt with one in-flight dial and queued waiters: the
dial log and saved credentials are frozen and the configuration is in one of
the two phases. -/
def InvA (d : List (Option String × Option Nat)) (sa : Option String) (sc : Option Nat)
    (cfg : CConfig) : Prop :=
  cfg.st.nextGen = 1 ∧ cfg.st.dials = d ∧ cfg.st.savedAuthEntity = sa ∧
    cfg.st.savedCreds = sc ∧ (Phase1 cfg ∨ Phase2 cfg)

/-- A fresh `SessionManager` state. -/
def smFresh : SMState := {}

/-- The manager state right after the C7 scenario negotiation: id `abc`,
heartbeat window 5 seconds. -/
def smEstablished : SMState := (gsm smFresh (.ok "abc" (some ⟨5, 0⟩))).1

/-- Client state with a generation-0 connect in flight, whose dial (with the
saved identity) has been issued. -/
def st0ex : ClientState :=
  { serviceHost := "h",
    connecting := some 0,
    nextGen := 1,
    savedAuthEntity := some "alice",
    savedCreds := some 1,
    dials := [(some "alice", some 1)] }

/-- One in-flight initiator plus one queued `connect` caller. -/
def cfgC1ex : CConfig := ⟨st0ex, c1tasks 1⟩

/-- A connected client (sessions disabled, WebRTC mode) with a live peer
connection and transport factory. -/
def c5st : ClientState :=
  { serviceHost := "h",
    webrtcEnabled := true,
    sessionOptions := some { disabled := true },
    transportFactory := some (.raw 7),
    peerConn := some 5,
    nextGen := 1 }

/-- The connected client about to run `disconnect`. -/
def cfgC5ex : CConfig := ⟨c5st, fun i => if i = 0 then .dStart else .idle⟩

/-- A never-connected client with sessions left enabled (no session options). -/
def c2st : ClientState := { serviceHost := "h" }

/-- A never-connected client with sessions disabled by configuration. -/
def c2dst : ClientState := { serviceHost := "h", sessionOptions := some { disabled := true } }

/-- A connect in flight, with a second `connect("z", 9)` call about to run its
prologue. -/
def c10wcfg : CConfig :=
  ⟨st0ex, fun i => if i = 1 then .cStart (some "z") (some 9) else .idle⟩

/-! Helper lemmas. -/

theorem updTask_self (ts : Nat → TaskState) (i : Nat) (t : TaskState) :
    updTask ts i t i = t := by
  simp [updTask]

theorem updTask_ne (ts : Nat → TaskState) (i : Nat) (t : TaskState) (j : Nat)
    (h : j ≠ i) : updTask ts i t j = ts j := by
  simp [updTask, h]

theorem resumeField_eq (s : SMState) : resumeField s = s.currentSessionID := by
  by_cases h : s.currentSessionID = "" <;> simp [resumeField, h]

theorem gsm_unsupported_noop (s : SMState) (o : StartOutcome)
    (h : s.sessionsSupported = some false) : gsm s o = (s, [], none) := by
  simp [gsm, h, getSessionMetadataInner]

theorem gsmMany_unsupported (s : SMState) (os : List StartOutcome)
    (h : s.sessionsSupported = some false) :
    (gsmMany s os).1 = s ∧ ∀ md ∈ (gsmMany s os).2, md = [] := by
  induction os with
  | nil => simp [gsmMany]
  | cons o rest ih =>
    constructor
    · simp only [gsmMany, gsm_unsupported_noop s o h]
      exact ih.1
    · intro md hmd
      simp only [gsmMany, gsm_unsupported_noop s o h, List.mem_cons] at hmd
      rcases hmd with hmd | hmd
      · exact hmd
      · exact ih.2 md hmd

/-- C3: the code, not the claim, is wrong here.  When the negotiation begun by
a `getSessionMetadata` call receives a success response missing the heartbeat
window, or `startSession` fails with an error other than unimplemented (code
14 below), the initiating caller receives an ordinary empty metadata value
(`return new grpc.Metadata()`); only the shared `starting` promise is
rejected.  The claim (and the code's stated intent — the adjoining TODO
comments read `this isn't right`) says the caller observes a fatal error. -/
theorem negotiation_failure_returns_metadata :
    (gsm smFresh (.ok "abc" none)).2.1 = [] ∧
    (gsm smFresh (.ok "abc" none)).2.2 =
      some (.rejected codeInternal "expected heartbeat window in response to start session") ∧
    (gsm smFresh (.ok "abc" none)).1.sessionsSupported = none ∧
    (gsm smFresh (.err 14 "unavailable")).2.1 = [] ∧
    (gsm smFresh (.err 14 "unavailable")).2.2 = some (.rejected 14 "unavailable") := by
  refine ⟨rfl, rfl, rfl, rfl, rfl⟩

/-- C7 counterexample: in the fresh-manager scenario (server returns id
`abc`, heartbeat window 5s) the metadata returned to the caller is keyed
`viam-sid`, not `session-id` as the claim states. -/
theorem first_negotiation_metadata_key_cex :
    (gsm smFresh (.ok "abc" (some ⟨5, 0⟩))).2.1 = [("viam-sid", "abc")] ∧
    (gsm smFresh (.ok "abc" (some ⟨5, 0⟩))).2.1 ≠ [("session-id", "abc")] := by
  constructor
  · rfl
  · decide

/-- C7 amended: for a fresh manager the first `getSessionMetadata` issues
`startSession` with an empty `resume`; on a response with id `abc` and
heartbeat window `{seconds 5, nanos 0}` it records support, stores the id,
computes the heartbeat interval as one fifth of the window (1000 ms, via
`(seconds * 1e3 + nanos / 1e6) / 5`), starts the heartbeat loop, and returns
metadata with the session id under the key `viam-sid` (not `session-id`). -/
theorem first_negotiation_scenario :
    (gsm smFresh (.ok "abc" (some ⟨5, 0⟩))).1.startSessionLog = [""] ∧
    (gsm smFresh (.ok "abc" (some ⟨5, 0⟩))).1.sessionsSupported = some true ∧
    (gsm smFresh (.ok "abc" (some ⟨5, 0⟩))).1.currentSessionID = "abc" ∧
    (gsm smFresh (.ok "abc" (some ⟨5, 0⟩))).1.heartbeatIntervalMs = some 1000 ∧
    (gsm smFresh (.ok "abc" (some ⟨5, 0⟩))).1.loopPending = 1 ∧
    intervalMs ⟨5, 0⟩ = 1000 ∧
    (gsm smFresh (.ok "abc" (some ⟨5, 0⟩))).2.1 = [("viam-sid", "abc")] := by
  have hq : intervalMs ⟨5, 0⟩ = 1000 := by norm_num [intervalMs]
  refine ⟨rfl, rfl, rfl, ?_, rfl, hq, rfl⟩
  have hproj : (gsm smFresh (.ok "abc" (some ⟨5, 0⟩))).1.heartbeatIntervalMs
      = some (intervalMs ⟨5, 0⟩) := rfl
  rw [hproj, hq]

/-- C6: once a negotiation reports unimplemented, support is recorded as
unsupported and stays so: the call returns empty metadata, each later
`getSessionMetadata` call (whatever the server would answer) returns empty
metadata with no further `startSession` request, until `reset()` clears the
support flag again. -/
theorem unsupported_sticky (s0 : SMState) (msg : String) (os : List StartOutcome)
    (h : s0.sessionsSupported = none) :
    (gsm s0 (.err codeUnimplemented msg)).1.sessionsSupported = some false ∧
    (gsm s0 (.err codeUnimplemented msg)).2.1 = [] ∧
    (gsm s0 (.err codeUnimplemented msg)).1.startSessionLog
        = s0.startSessionLog ++ [resumeField s0] ∧
    (gsmMany (gsm s0 (.err codeUnimplemented msg)).1 os).1
        = (gsm s0 (.err codeUnimplemented msg)).1 ∧
    (∀ md ∈ (gsmMany (gsm s0 (.err codeUnimplemented msg)).1 os).2, md = []) ∧
    (reset (gsm s0 (.err codeUnimplemented msg)).1).sessionsSupported = none := by
  have hgsm : gsm s0 (.err codeUnimplemented msg) =
      ({ s0 with sessionsSupported := some false, starting := false,
                 startSessionLog := s0.startSessionLog ++ [resumeField s0] },
       [], some .resolvedOk) := by
    simp [gsm, h, gsmFinish, gsmStartState]
  rw [hgsm]
  refine ⟨rfl, rfl, rfl, ?_, ?_, ?_⟩
  · exact (gsmMany_unsupported _ os rfl).1
  · exact (gsmMany_unsupported _ os rfl).2
  · simp [reset]

/-- C6 witness: concrete instance of the sticky-unsupported theorem. -/
theorem unsupported_sticky_witness :
    (gsm smFresh (.err codeUnimplemented "x")).1.sessionsSupported = some false ∧
    (gsmMany (gsm smFresh (.err codeUnimplemented "x")).1 [.ok "y" none]).1
        = (gsm smFresh (.err codeUnimplemented "x")).1 :=
  ⟨(unsupported_sticky smFresh "x" [.ok "y" none] rfl).1,
   (unsupported_sticky smFresh "x" [.ok "y" none] rfl).2.2.2.1⟩

/-- C8: `reset()` during an in-flight negotiation is a no-op (so the
negotiation's eventual outcome is unchanged); otherwise it clears exactly the
support-known flag, keeping the stored session id, and the next
`startSession` after a reset carries `resume` equal to the stored id. -/
theorem reset_suppressed_and_resume :
    (∀ s : SMState, s.starting = true → reset s = s) ∧
    (∀ s : SMState, reset (gsmStartState s) = gsmStartState s) ∧
    (∀ (s : SMState) (o : StartOutcome),
        gsmFinish (reset (gsmStartState s)) o = gsmFinish (gsmStartState s) o) ∧
    (∀ s : SMState, s.starting = false → reset s = { s with sessionsSupported := none }) ∧
    (∀ s : SMState, resumeField s = s.currentSessionID) ∧
    (∀ (s : SMState) (o : StartOutcome), s.starting = false →
        (gsm (reset s) o).1.startSessionLog = s.startSessionLog ++ [s.currentSessionID] ∧
        (gsm (reset s) o).1.startSessionLog.getLast? = some s.currentSessionID) := by
  have hnoop : ∀ s : SMState, s.starting = true → reset s = s := by
    intro s hs; simp [reset, hs]
  have hmid : ∀ s : SMState, reset (gsmStartState s) = gsmStartState s := by
    intro s; exact hnoop _ rfl
  have hclear : ∀ s : SMState, s.starting = false →
      reset s = { s with sessionsSupported := none } := by
    intro s hs; simp [reset, hs]
  refine ⟨hnoop, hmid, ?_, hclear, resumeField_eq, ?_⟩
  · intro s o; rw [hmid]
  · intro s o hs
    have hlog : (gsm (reset s) o).1.startSessionLog
        = s.startSessionLog ++ [s.currentSessionID] := by
      rw [hclear s hs]
      have hneg : ({ s with sessionsSupported := none } : SMState).sessionsSupported
          = none := rfl
      cases o with
      | ok id window =>
        cases window with
        | none => simp [gsm, gsmFinish, gsmStartState, resumeField_eq]
        | some w =>
          simp [gsm, gsmFinish, gsmStartState, resumeField_eq, heartbeatEntry]
          split <;> rfl
      | err code msg =>
        by_cases hcode : code = codeUnimplemented <;>
          simp [gsm, gsmFinish, gsmStartState, resumeField_eq, hcode]
    exact ⟨hlog, by rw [hlog]; simp⟩

/-- C8 witness: concrete instances — a reset injected right after the
negotiation's first segment changes nothing, and after a plain reset the next
request resumes the stored id `abc`. -/
theorem reset_suppressed_and_resume_witness :
    reset (gsmStartState smFresh) = gsmStartState smFresh ∧
    (gsm (reset smEstablished) (.err 14 "x")).1.startSessionLog
        = smEstablished.startSessionLog ++ [smEstablished.currentSessionID] :=
  ⟨reset_suppressed_and_resume.2.1 smFresh,
   (reset_suppressed_and_resume.2.2.2.2.2 smEstablished (.err 14 "x") rfl).1⟩

/-- C9: a heartbeat failure classified as connection-closed triggers an
internal `reset()` — support becomes unknown while the id, interval and armed
loop are untouched and no error escapes — so the next `getSessionMetadata`
renegotiates (sends `startSession` resuming the retained id); any other
heartbeat failure changes nothing but the request log, and in both cases the
loop re-arms on schedule. -/
theorem heartbeat_self_heal (s : SMState) (o2 : StartOutcome)
    (h : s.starting = false) :
    (heartbeatTick s .errClosed).sessionsSupported = none ∧
    (heartbeatTick s .errClosed).currentSessionID = s.currentSessionID ∧
    (heartbeatTick s .errClosed).heartbeatIntervalMs = s.heartbeatIntervalMs ∧
    (heartbeatTick s .errClosed).loopPending = s.loopPending ∧
    (heartbeatTick s .errClosed).heartbeatLog = s.heartbeatLog ++ [s.currentSessionID] ∧
    (gsm (heartbeatTick s .errClosed) o2).1.startSessionLog
        = s.startSessionLog ++ [s.currentSessionID] ∧
    heartbeatTick s .errOther
        = { s with heartbeatLog := s.heartbeatLog ++ [s.currentSessionID] } := by
  have htick : heartbeatTick s .errClosed
      = { s with sessionsSupported := none,
                 heartbeatLog := s.heartbeatLog ++ [s.currentSessionID] } := by
    simp [heartbeatTick, reset, h]
  refine ⟨by rw [htick], by rw [htick], by rw [htick], by rw [htick], by rw [htick], ?_, rfl⟩
  rw [htick]
  cases o2 with
  | ok id window =>
    cases window with
    | none => simp [gsm, gsmFinish, gsmStartState, resumeField_eq]
    | some w =>
      simp [gsm, gsmFinish, gsmStartState, resumeField_eq, heartbeatEntry]
      split <;> rfl
  | err code msg =>
    by_cases hcode : code = codeUnimplemented <;>
      simp [gsm, gsmFinish, gsmStartState, resumeField_eq, hcode]

/-- C9 witness: concrete instance on the established session state. -/
theorem heartbeat_self_heal_witness :
    (heartbeatTick smEstablished .errClosed).sessionsSupported = none ∧
    (gsm (heartbeatTick smEstablished .errClosed) (.err 14 "x")).1.startSessionLog
        = smEstablished.startSessionLog ++ [smEstablished.currentSessionID] :=
  ⟨(heartbeat_self_heal smEstablished (.err 14 "x") rfl).1,
   (heartbeat_self_heal smEstablished (.err 14 "x") rfl).2.2.2.2.2.1⟩

/-- C4 counterexample: establish a session (id `abc`, loop armed), then
`reset()`.  The armed `doHeartbeat` callback still fires and sends a
heartbeat request — the claim that no heartbeat requests continue to be sent
once the session is reset is false: only the entry guard of `heartbeat()`
re-checks support, the running loop does not. -/
theorem heartbeat_continues_after_reset_cex :
    (reset smEstablished).sessionsSupported = none ∧
    (reset smEstablished).loopPending = 1 ∧
    (heartbeatTick (reset smEstablished) .ok).heartbeatLog = ["abc"] := by
  refine ⟨rfl, rfl, rfl⟩

/-- C4 amended: the support/id guard is evaluated only when `heartbeat()`
itself is invoked — such an invocation after a reset or with support
unsupported is a no-op — but one armed `doHeartbeat` invocation
unconditionally sends a heartbeat request with the current id and re-arms
itself, whatever the recorded support state, so an already-running loop keeps
sending heartbeats after a reset. -/
theorem heartbeat_guard_and_loop (s : SMState) (o : HbOutcome) :
    (¬(s.sessionsSupported = some true ∧ s.currentSessionID ≠ "") →
        heartbeatEntry s = s) ∧
    (s.sessionsSupported = some true ∧ s.currentSessionID ≠ "" →
        heartbeatEntry s = { s with loopPending := s.loopPending + 1 }) ∧
    (heartbeatTick s o).heartbeatLog = s.heartbeatLog ++ [s.currentSessionID] ∧
    (heartbeatTick s o).loopPending = s.loopPending := by
  refine ⟨?_, ?_, ?_, ?_⟩
  · intro hg; simp [heartbeatEntry, hg]
  · intro hg; simp [heartbeatEntry, hg]
  · cases o with
    | ok => rfl
    | errClosed =>
      simp only [heartbeatTick, reset]
      split <;> rfl
    | errOther => rfl
  · cases o with
    | ok => rfl
    | errClosed =>
      simp only [heartbeatTick, reset]
      split <;> rfl
    | errOther => rfl

/-- C4 witness: concrete instances — after a reset the `heartbeat()` entry is
a no-op, while a tick still logs a request and keeps the loop armed. -/
theorem heartbeat_guard_and_loop_witness :
    heartbeatEntry (reset smEstablished) = reset smEstablished ∧
    (heartbeatTick (reset smEstablished) .ok).loopPending
        = (reset smEstablished).loopPending :=
  ⟨(heartbeat_guard_and_loop (reset smEstablished) .ok).1 (by decide),
   (heartbeat_guard_and_loop (reset smEstablished) .ok).2.2.2⟩

theorem invA_step (d : List (Option String × Option Nat)) (sa : Option String)
    (sc : Option Nat) (a : CAction) (cfg : CConfig)
    (h : InvA d sa sc cfg) : InvA d sa sc (stepC a cfg) := by
  obtain ⟨hn, hd, hsa, hsc, hph⟩ := h
  cases a with
  | run i =>
    rcases hph with ⟨hc, h0, hw⟩ | ⟨hc, ⟨r0, h0⟩, hw⟩
    · by_cases hi : i = 0
      · subst hi
        have hstep : stepC (.run 0) cfg = cfg := by simp [stepC, stepRun, h0]
        rw [hstep]
        exact ⟨hn, hd, hsa, hsc, Or.inl ⟨hc, h0, hw⟩⟩
      · rcases hw i hi with hti | hti
        · have hnr : ¬ resolvedConn cfg.st 0 := fun hr => hr.2 hc
          have hstep : stepC (.run i) cfg = cfg := by simp [stepC, stepRun, hti, hnr]
          rw [hstep]
          exact ⟨hn, hd, hsa, hsc, Or.inl ⟨hc, h0, hw⟩⟩
        · have hstep : stepC (.run i) cfg = cfg := by simp [stepC, stepRun, hti]
          rw [hstep]
          exact ⟨hn, hd, hsa, hsc, Or.inl ⟨hc, h0, hw⟩⟩
    · by_cases hi : i = 0
      · subst hi
        have hstep : stepC (.run 0) cfg = cfg := by simp [stepC, stepRun, h0]
        rw [hstep]
        exact ⟨hn, hd, hsa, hsc, Or.inr ⟨hc, ⟨r0, h0⟩, hw⟩⟩
      · rcases hw i hi with hti | hti | hti
        · have hr : resolvedConn cfg.st 0 := by
            refine ⟨?_, ?_⟩
            · rw [hn]; exact Nat.zero_lt_one
            · rw [hc]; exact fun hx => Option.noConfusion hx
          have hstep : stepC (.run i) cfg
              = { cfg with tasks := updTask cfg.tasks i (.cDone none) } := by
            simp [stepC, stepRun, hti, hr, hc]
          rw [hstep]
          refine ⟨hn, hd, hsa, hsc, Or.inr ⟨hc, ⟨r0, ?_⟩, ?_⟩⟩
          · have hz : (0 : Nat) ≠ i := fun hz => hi hz.symm
            simpa [updTask, hz] using h0
          · intro j hj
            by_cases hji : j = i
            · subst hji
              exact Or.inr (Or.inl (by simp [updTask]))
            · simpa [updTask, hji] using hw j hj
        · have hstep : stepC (.run i) cfg = cfg := by simp [stepC, stepRun, hti]
          rw [hstep]
          exact ⟨hn, hd, hsa, hsc, Or.inr ⟨hc, ⟨r0, h0⟩, hw⟩⟩
        · have hstep : stepC (.run i) cfg = cfg := by simp [stepC, stepRun, hti]
          rw [hstep]
          exact ⟨hn, hd, hsa, hsc, Or.inr ⟨hc, ⟨r0, h0⟩, hw⟩⟩
  | settle i r =>
    rcases hph with ⟨hc, h0, hw⟩ | ⟨hc, ⟨r0, h0⟩, hw⟩
    · by_cases hi : i = 0
      · subst hi
        cases r with
        | ok pc tf =>
          have hstep : stepC (.settle 0 (.ok pc tf)) cfg
              = { st := { cfg.st with
                            transportFactory := some (.raw tf)
                            peerConn := if cfg.st.webrtcEnabled then some pc
                              else cfg.st.peerConn
                            connecting := none }
                  tasks := updTask cfg.tasks 0 (.cDone none) } := by
            simp [stepC, stepSettle, h0, hc]
          rw [hstep]
          refine ⟨hn, hd, hsa, hsc, Or.inr ⟨rfl, ⟨none, by simp [updTask]⟩, ?_⟩⟩
          intro j hj
          rcases hw j hj with h' | h'
          · exact Or.inl (by simpa [updTask, hj] using h')
          · exact Or.inr (Or.inr (by simpa [updTask, hj] using h'))
        | fail e =>
          have hstep : stepC (.settle 0 (.fail e)) cfg
              = { st := { cfg.st with connecting := none }
                  tasks := updTask cfg.tasks 0 (.cDone (some e)) } := by
            simp [stepC, stepSettle, h0, hc]
          rw [hstep]
          refine ⟨hn, hd, hsa, hsc, Or.inr ⟨rfl, ⟨some e, by simp [updTask]⟩, ?_⟩⟩
          intro j hj
          rcases hw j hj with h' | h'
          · exact Or.inl (by simpa [updTask, hj] using h')
          · exact Or.inr (Or.inr (by simpa [updTask, hj] using h'))
      · rcases hw i hi with hti | hti
        · have hstep : stepC (.settle i r) cfg = cfg := by simp [stepC, stepSettle, hti]
          rw [hstep]
          exact ⟨hn, hd, hsa, hsc, Or.inl ⟨hc, h0, hw⟩⟩
        · have hstep : stepC (.settle i r) cfg = cfg := by simp [stepC, stepSettle, hti]
          rw [hstep]
          exact ⟨hn, hd, hsa, hsc, Or.inl ⟨hc, h0, hw⟩⟩
    · have hstep : stepC (.settle i r) cfg = cfg := by
        by_cases hi : i = 0
        · subst hi; simp [stepC, stepSettle, h0]
        · rcases hw i hi with hti | hti | hti <;> simp [stepC, stepSettle, hti]
      rw [hstep]
      exact ⟨hn, hd, hsa, hsc, Or.inr ⟨hc, ⟨r0, h0⟩, hw⟩⟩

theorem invA_runC (d : List (Option String × Option Nat)) (sa : Option String)
    (sc : Option Nat) (sched : List CAction) (cfg : CConfig)
    (h : InvA d sa sc cfg) : InvA d sa sc (runC sched cfg) := by
  induction sched generalizing cfg with
  | nil => simpa [runC] using h
  | cons a rest ih =>
    have hr : runC (a :: rest) cfg = runC rest (stepC a cfg) := by simp [runC]
    rw [hr]
    exact ih _ (invA_step d sa sc a cfg h)

theorem invA_start (st0 : ClientState) (N : Nat)
    (h1 : st0.connecting = some 0) (h2 : st0.nextGen = 1) :
    InvA st0.dials st0.savedAuthEntity st0.savedCreds ⟨st0, c1tasks N⟩ := by
  refine ⟨h2, rfl, rfl, rfl, Or.inl ⟨h1, by simp [c1tasks], ?_⟩⟩
  intro i hi
  by_cases hle : i ≤ N
  · exact Or.inl (by simp [c1tasks, hi, hle])
  · exact Or.inr (by simp [c1tasks, hi, hle])

/-- C1 amended: with a dial of generation 0 in flight and `N` concurrent
`connect` callers queued on its promise, under every schedule the dialer is
never invoked again (the dial log is frozen, so the one recorded dial is the
at-most-one dial), every queued caller either still waits or has completed
without error, and a queued caller can only have completed after the single
dial settled.  The original claim's fan-out of a dial failure to every waiter
does not hold: the `connecting` promise is only ever resolved, so the failure
reaches the initiating caller alone (see the counterexample). -/
theorem connect_at_most_one_dial (sched : List CAction) (st0 : ClientState) (N : Nat)
    (h1 : st0.connecting = some 0) (h2 : st0.nextGen = 1) :
    (runC sched ⟨st0, c1tasks N⟩).st.dials = st0.dials ∧
    (∀ i, i ≠ 0 →
        ((runC sched ⟨st0, c1tasks N⟩).tasks i = .cWaiting 0 ∨
         (runC sched ⟨st0, c1tasks N⟩).tasks i = .cDone none ∨
         (runC sched ⟨st0, c1tasks N⟩).tasks i = .idle)) ∧
    (∀ i, i ≠ 0 → (runC sched ⟨st0, c1tasks N⟩).tasks i = .cDone none →
        ∃ r, (runC sched ⟨st0, c1tasks N⟩).tasks 0 = .cDone r) := by
  obtain ⟨-, hd, -, -, hph⟩ :=
    invA_runC st0.dials st0.savedAuthEntity st0.savedCreds sched _ (invA_start st0 N h1 h2)
  refine ⟨hd, ?_, ?_⟩
  · intro i hi
    rcases hph with ⟨-, -, hw⟩ | ⟨-, -, hw⟩
    · rcases hw i hi with h' | h'
      · exact Or.inl h'
      · exact Or.inr (Or.inr h')
    · exact hw i hi
  · intro i hi hdone
    rcases hph with ⟨-, -, hw⟩ | ⟨-, h0, -⟩
    · rcases hw i hi with h' | h' <;> rw [h'] at hdone <;> exact absurd hdone (by simp)
    · exact h0

/-- C1 witness: concrete instance — with the generation-0 dial of `st0ex` in
flight and one queued caller, the dial log never grows. -/
theorem connect_at_most_one_dial_witness :
    (runC [] ⟨st0ex, c1tasks 1⟩).st.dials = st0ex.dials :=
  (connect_at_most_one_dial [] st0ex 1 rfl rfl).1

/-- C1 counterexample: the in-flight dial fails with error 7; the initiating
caller's `connect` throws it, but the queued caller's `connect` resolves
without any error — the single failure is not observed identically by the
waiting caller, because the shared `connecting` promise is resolved, never
rejected, in the `finally`. -/
theorem connect_dial_failure_not_fanned_out_cex :
    (runC [.settle 0 (.fail 7), .run 1] cfgC1ex).tasks 0 = .cDone (some 7) ∧
    (runC [.settle 0 (.fail 7), .run 1] cfgC1ex).tasks 1 = .cDone none := by
  refine ⟨rfl, rfl⟩

/-- C10: a `connect(authEntity, creds)` call whose prologue runs while
another connect is in flight changes no shared state at all — it merely
starts waiting on the in-flight promise, so its arguments are dropped
unused — and from such a configuration no schedule can ever change the saved
auth identity, the saved credentials, or the dial log: they remain those of
the earlier attempt. -/
theorem queued_connect_args_unused :
    (∀ (cfg : CConfig) (i : Nat) (a : Option String) (c : Option Nat) (g : Nat),
        cfg.tasks i = .cStart a c → cfg.st.connecting = some g →
        (stepRun i cfg).st = cfg.st ∧ (stepRun i cfg).tasks i = .cWaiting g) ∧
    (∀ (sched : List CAction) (st0 : ClientState),
        st0.connecting = some 0 → st0.nextGen = 1 →
        (runC sched ⟨st0, c1tasks 1⟩).st.savedAuthEntity = st0.savedAuthEntity ∧
        (runC sched ⟨st0, c1tasks 1⟩).st.savedCreds = st0.savedCreds ∧
        (runC sched ⟨st0, c1tasks 1⟩).st.dials = st0.dials) := by
  constructor
  · intro cfg i a c g hti hc
    constructor
    · simp [stepRun, hti, hc]
    · simp [stepRun, hti, hc, updTask]
  · intro sched st0 h1 h2
    obtain ⟨-, hd, hsa, hsc, -⟩ :=
      invA_runC st0.dials st0.savedAuthEntity st0.savedCreds sched _ (invA_start st0 1 h1 h2)
    exact ⟨hsa, hsc, hd⟩

/-- C10 witness: a `connect("z", 9)` call entered while the generation-0
connect of `st0ex` is in flight leaves every shared field unchanged. -/
theorem queued_connect_args_unused_witness :
    (stepRun 1 c10wcfg).st = c10wcfg.st ∧ (stepRun 1 c10wcfg).tasks 1 = .cWaiting 0 :=
  queued_connect_args_unused.1 c10wcfg 1 (some "z") (some 9) 0 rfl rfl

/-- C5 amended: `disconnect` performs no teardown while a connect is in
flight (its steps leave the shared state untouched) and can only complete
once no connect is in flight; when it does tear down it closes and clears
the peer connection (if any) and resets the session manager state — but it
does not clear the transport factory, so on an already-disconnected client it
is a no-op beyond the wait and the session reset, and the client still hands
out the old factory (see the counterexample). -/
theorem disconnect_waits_and_clears_peer (cfg : CConfig) (i : Nat) :
    (∀ g, cfg.st.connecting = some g →
        (cfg.tasks i = .dStart ∨ (∃ g2, cfg.tasks i = .dWaiting g2)) →
        (stepRun i cfg).st = cfg.st) ∧
    ((cfg.tasks i = .dStart ∨ (∃ g2, cfg.tasks i = .dWaiting g2)) →
        (stepRun i cfg).tasks i = .dDone → cfg.st.connecting = none) ∧
    (cfg.tasks i = .dStart → cfg.st.connecting = none →
        (stepRun i cfg).st.peerConn = none ∧
        (stepRun i cfg).st.sm = reset cfg.st.sm ∧
        (stepRun i cfg).st.transportFactory = cfg.st.transportFactory ∧
        (stepRun i cfg).st.connecting = none ∧
        (stepRun i cfg).tasks i = .dDone) := by
  refine ⟨?_, ?_, ?_⟩
  · intro g hg hdisc
    rcases hdisc with hd | ⟨g2, hd⟩
    · simp [stepRun, hd, hg]
    · by_cases hr : resolvedConn cfg.st g2
      · simp [stepRun, hd, hr, hg]
      · simp [stepRun, hd, hr]
  · intro hdisc hdone
    rcases hdisc with hd | ⟨g2, hd⟩
    · cases hc : cfg.st.connecting with
      | none => rfl
      | some g => simp [stepRun, hd, hc, updTask] at hdone
    · cases hc : cfg.st.connecting with
      | none => rfl
      | some g =>
        by_cases hr : resolvedConn cfg.st g2
        · simp [stepRun, hd, hc, hr, updTask] at hdone
        · rw [show stepRun i cfg = cfg from by simp [stepRun, hd, hr]] at hdone
          rw [hd] at hdone
          exact absurd hdone (by simp)
  · intro hd hc
    refine ⟨?_, ?_, ?_, ?_, ?_⟩ <;> simp [stepRun, hd, hc, updTask]

/-- C5 witness: on the connected client `cfgC5ex` with nothing in flight,
one `disconnect` step closes the peer connection, resets the session state,
completes, and leaves the transport factory in place. -/
theorem disconnect_waits_and_clears_peer_witness :
    (stepRun 0 cfgC5ex).st.peerConn = none ∧
    (stepRun 0 cfgC5ex).st.sm = reset cfgC5ex.st.sm ∧
    (stepRun 0 cfgC5ex).st.transportFactory = cfgC5ex.st.transportFactory ∧
    (stepRun 0 cfgC5ex).st.connecting = none ∧
    (stepRun 0 cfgC5ex).tasks 0 = .dDone :=
  (disconnect_waits_and_clears_peer cfgC5ex 0).2.2 rfl rfl

/-- C5 counterexample: after `disconnect` completes on a connected client
(sessions disabled), the peer connection is cleared but the live transport
factory is not — `createServiceClient` still succeeds with the old factory,
so the claim that `disconnect` closes and clears the live transport is false
beyond the peer connection. -/
theorem disconnect_keeps_transport_factory_cex :
    (runC [.run 0] cfgC5ex).tasks 0 = .dDone ∧
    (runC [.run 0] cfgC5ex).st.peerConn = none ∧
    (runC [.run 0] cfgC5ex).st.transportFactory = some (.raw 7) ∧
    createServiceClient (runC [.run 0] cfgC5ex).st = .ok ("h", .raw 7) := by
  refine ⟨rfl, rfl, rfl, rfl⟩

/-- C2 amended: the `not connected yet` guard of `createServiceClient` and
`host` fires exactly when sessions are disabled by configuration and no
transport factory exists; when sessions are enabled (or unconfigured) both
succeed even before any connect, because the session manager's factory getter
always yields a value — the not-connected check is deferred to the moment the
inner transport factory is invoked; and whenever a transport factory exists,
`host` returns the configured service host. -/
theorem not_connected_guard (c : ClientState) :
    (sessionsDisabled c = true → c.transportFactory = none →
        createServiceClient c = .error notConnectedYetStr ∧
        host c = .error notConnectedYetStr) ∧
    (sessionsDisabled c = false →
        createServiceClient c = .ok (c.serviceHost, .sessionWrapped) ∧
        host c = .ok c.serviceHost) ∧
    (∀ tf, c.transportFactory = some tf → host c = .ok c.serviceHost) ∧
    (c.transportFactory = none → innerTransportFactory c = .error notConnectedYetStr) := by
  refine ⟨?_, ?_, ?_, ?_⟩
  · intro h1 h2
    constructor <;> simp [createServiceClient, host, clientTransportFactory, h1, h2]
  · intro h1
    constructor <;> simp [createServiceClient, host, clientTransportFactory, h1]
  · intro tf htf
    by_cases h1 : sessionsDisabled c <;> simp [host, clientTransportFactory, h1, htf]
  · intro h2
    simp [innerTransportFactory, h2]

/-- C2 witness: on a never-connected client with sessions disabled, both
`createServiceClient` and `host` fail with the not-connected error. -/
theorem not_connected_guard_witness :
    createServiceClient c2dst = .error notConnectedYetStr ∧
    host c2dst = .error notConnectedYetStr :=
  (not_connected_guard c2dst).1 rfl rfl

/-- C2 counterexample: on a never-connected client whose configuration does
not disable sessions, `createServiceClient` succeeds and `host` returns the
configured host — neither fails with the not-connected condition, refuting
the claim that they fail regardless of the session configuration. -/
theorem not_connected_guard_cex :
    c2st.transportFactory = none ∧
    createServiceClient c2st = .ok ("h", .sessionWrapped) ∧
    host c2st = .ok "h" := by
  refine ⟨rfl, rfl, rfl⟩

end Viam
